import Mathlib

/-!
Verification of the signing and attestation-persistence core of the
`chains` repository against its natural-language specification.

The development shallowly embeds two source files:

* `pkg/chains/storage/tekton/tekton.go` — the Tekton annotation storage
  backend (`StorePayload`, `RetrievePayload`, `RetrieveSignature`,
  `payloadKey`, `retrieveAnnotationValue`).
* `vendor/github.com/sigstore/sigstore/pkg/signature/kms/azure/signer.go`
  — the Azure KMS `SignerVerifier` (`SignMessage`, `VerifySignature`,
  `LoadSignerVerifier`, `CreateKey`), including the raw `r‖s` to ASN.1 DER
  signature conversion done with `golang.org/x/crypto/cryptobyte`.

Byte strings are modelled as `List Nat` with entries below 256; `Nat` and
`Int` stand for Go's `math/big.Int` values, which are unbounded.
-/

/-- Big-endian interpretation of a byte list, as performed by Go's
`big.Int.SetBytes`. -/
def bytesToNat : List Nat → Nat
  | [] => 0
  | b :: t => b * 256 ^ t.length + bytesToNat t

/-- Fuel-indexed helper computing the minimal big-endian byte
representation of a natural number (the behaviour of `big.Int.Bytes` for
non-negative values).  The fuel argument only serves to make the
recursion structural; `natToBytes` instantiates it sufficiently large. -/
def natToBytesAux : Nat → Nat → List Nat
  | _, 0 => []
  | 0, _ + 1 => []
  | fuel + 1, n + 1 => natToBytesAux fuel ((n + 1) / 256) ++ [(n + 1) % 256]

/-- Minimal big-endian bytes of `n`, i.e. Go's `big.Int.Bytes` on a
non-negative integer: empty for `0`, and with a non-zero leading byte
otherwise. -/
def natToBytes (n : Nat) : List Nat :=
  natToBytesAux n n

theorem natToBytesAux_zero (f : Nat) : natToBytesAux f 0 = [] := by
  cases f <;> rfl

theorem natToBytesAux_congr (n : Nat) : ∀ f₁ f₂ : Nat, n ≤ f₁ → n ≤ f₂ →
    natToBytesAux f₁ n = natToBytesAux f₂ n := by
  induction n using Nat.strong_induction_on with
  | _ n ih =>
    intro f₁ f₂ h₁ h₂
    match n, f₁, f₂ with
    | 0, f₁, f₂ => rw [natToBytesAux_zero, natToBytesAux_zero]
    | n + 1, f₁ + 1, f₂ + 1 =>
      show natToBytesAux f₁ ((n + 1) / 256) ++ _ = natToBytesAux f₂ ((n + 1) / 256) ++ _
      have hlt : (n + 1) / 256 < n + 1 := Nat.div_lt_self (Nat.succ_pos n) (by omega)
      rw [ih ((n + 1) / 256) hlt f₁ ((n + 1) / 256) (by omega) (le_refl _),
          ih ((n + 1) / 256) hlt f₂ ((n + 1) / 256) (by omega) (le_refl _)]

theorem natToBytes_zero : natToBytes 0 = [] := rfl

theorem natToBytes_succ (n : Nat) (h : 0 < n) :
    natToBytes n = natToBytes (n / 256) ++ [n % 256] := by
  match n, h with
  | n + 1, _ =>
    show natToBytesAux (n + 1) (n + 1) = _
    have hlt : (n + 1) / 256 < n + 1 := Nat.div_lt_self (Nat.succ_pos n) (by omega)
    show natToBytesAux n ((n + 1) / 256) ++ [(n + 1) % 256] = _
    rw [natToBytesAux_congr ((n + 1) / 256) n ((n + 1) / 256) (by omega) (le_refl _)]
    rfl

theorem bytesToNat_append (l₁ l₂ : List Nat) :
    bytesToNat (l₁ ++ l₂) = bytesToNat l₁ * 256 ^ l₂.length + bytesToNat l₂ := by
  induction l₁ with
  | nil => simp [bytesToNat]
  | cons b t ih =>
    have h1 : bytesToNat (b :: (t ++ l₂)) = b * 256 ^ (t ++ l₂).length + bytesToNat (t ++ l₂) := rfl
    have h2 : bytesToNat (b :: t) = b * 256 ^ t.length + bytesToNat t := rfl
    show bytesToNat (b :: (t ++ l₂)) = bytesToNat (b :: t) * 256 ^ l₂.length + bytesToNat l₂
    rw [h1, h2, ih, List.length_append, pow_add]
    ring

theorem bytesToNat_snoc (l : List Nat) (b : Nat) :
    bytesToNat (l ++ [b]) = 256 * bytesToNat l + b := by
  rw [bytesToNat_append]
  simp [bytesToNat]
  ring

theorem bytesToNat_natToBytes (n : Nat) : bytesToNat (natToBytes n) = n := by
  induction n using Nat.strong_induction_on with
  | _ n ih =>
    rcases Nat.eq_zero_or_pos n with h | h
    · subst h; rfl
    · rw [natToBytes_succ n h, bytesToNat_snoc,
          ih (n / 256) (Nat.div_lt_self h (by omega))]
      omega

theorem natToBytes_ne_nil (n : Nat) (h : 0 < n) : natToBytes n ≠ [] := by
  rw [natToBytes_succ n h]
  simp

theorem natToBytes_length_le (k : Nat) : ∀ n : Nat, n < 256 ^ k →
    (natToBytes n).length ≤ k := by
  induction k with
  | zero => intro n hn; interval_cases n; simp [natToBytes_zero]
  | succ k ih =>
    intro n hn
    rcases Nat.eq_zero_or_pos n with h | h
    · subst h; simp [natToBytes_zero]
    · rw [natToBytes_succ n h]
      have : (natToBytes (n / 256)).length ≤ k := by
        apply ih
        rw [Nat.pow_succ] at hn
        exact Nat.div_lt_of_lt_mul (by omega)
      simp only [List.length_append, List.length_cons, List.length_nil]
      omega

theorem natToBytes_lower (n : Nat) (h : 0 < n) :
    256 ^ ((natToBytes n).length - 1) ≤ n := by
  induction n using Nat.strong_induction_on with
  | _ n ih =>
    rcases Nat.lt_or_ge n 256 with hlt | hge
    · have h0 : n / 256 = 0 := Nat.div_eq_of_lt hlt
      rw [natToBytes_succ n h, h0, natToBytes_zero]
      simpa using h
    · have hpos : 0 < n / 256 := Nat.div_pos hge (by omega)
      have hrec := ih (n / 256) (Nat.div_lt_self h (by omega)) hpos
      rw [natToBytes_succ n h]
      have hne : natToBytes (n / 256) ≠ [] := natToBytes_ne_nil _ hpos
      have hlen : 0 < (natToBytes (n / 256)).length := List.length_pos.mpr hne
      simp only [List.length_append, List.length_cons, List.length_nil]
      have : 256 ^ ((natToBytes (n / 256)).length + 1 - 1) ≤ 256 * (n / 256) := by
        calc 256 ^ ((natToBytes (n / 256)).length + 1 - 1)
            = 256 * 256 ^ ((natToBytes (n / 256)).length - 1) := by
              rw [Nat.add_sub_cancel]
              rw [← Nat.pow_succ']
              congr 1
              omega
          _ ≤ 256 * (n / 256) := by exact Nat.mul_le_mul_left 256 hrec
      calc 256 ^ ((natToBytes (n / 256)).length + 1 - 1) ≤ 256 * (n / 256) := this
        _ ≤ n := Nat.mul_div_le n 256

theorem headD_append (l m : List Nat) (d : Nat) (h : l ≠ []) :
    (l ++ m).headD d = l.headD d := by
  cases l with
  | nil => exact absurd rfl h
  | cons a t => rfl

theorem natToBytes_headD (n : Nat) (h : 0 < n) : (natToBytes n).headD 0 ≠ 0 := by
  induction n using Nat.strong_induction_on with
  | _ n ih =>
    rcases Nat.lt_or_ge n 256 with hlt | hge
    · have h0 : n / 256 = 0 := Nat.div_eq_of_lt hlt
      rw [natToBytes_succ n h, h0, natToBytes_zero]
      have : n % 256 = n := Nat.mod_eq_of_lt hlt
      simp [this]
      omega
    · have hpos : 0 < n / 256 := Nat.div_pos hge (by omega)
      rw [natToBytes_succ n h,
          headD_append _ _ _ (natToBytes_ne_nil _ hpos)]
      exact ih (n / 256) (Nat.div_lt_self h (by omega)) hpos

theorem bytesToNat_pos (l : List Nat) (h : l.headD 0 ≠ 0) : 0 < bytesToNat l := by
  cases l with
  | nil => exact absurd rfl h
  | cons b t =>
    simp only [List.headD_cons] at h
    have : 0 < 256 ^ t.length := Nat.pos_pow_of_pos _ (by omega)
    simp only [bytesToNat]
    have : 1 * 1 ≤ b * 256 ^ t.length := Nat.mul_le_mul (by omega) this
    omega

theorem natToBytes_bytesToNat (l : List Nat) (h0 : l.headD 0 ≠ 0)
    (hb : ∀ b ∈ l, b < 256) : natToBytes (bytesToNat l) = l := by
  induction l using List.reverseRecOn with
  | nil => exact absurd rfl h0
  | append_singleton l b ih =>
    rw [bytesToNat_snoc]
    have hblt : b < 256 := hb b (by simp)
    cases l with
    | nil =>
      simp only [List.nil_append, List.headD_cons] at h0
      simp only [bytesToNat, List.length_nil, pow_zero, mul_one, Nat.zero_mul,
        Nat.mul_zero, Nat.zero_add]
      rw [natToBytes_succ b (by omega), Nat.div_eq_of_lt hblt,
          Nat.mod_eq_of_lt hblt, natToBytes_zero]
    | cons a t =>
      have h0' : (a :: t).headD 0 ≠ 0 := by
        rwa [headD_append _ _ _ (by simp)] at h0
      have hpos : 0 < bytesToNat (a :: t) := bytesToNat_pos _ h0'
      have hn : 0 < 256 * bytesToNat (a :: t) + b := by omega
      rw [natToBytes_succ _ hn]
      have hdiv : (256 * bytesToNat (a :: t) + b) / 256 = bytesToNat (a :: t) := by
        omega
      have hmod : (256 * bytesToNat (a :: t) + b) % 256 = b := by
        omega
      rw [hdiv, hmod, ih h0' (fun x hx => hb x (List.mem_append_left _ hx))]

theorem natToBytes_mem_lt (n : Nat) : ∀ b ∈ natToBytes n, b < 256 := by
  induction n using Nat.strong_induction_on with
  | _ n ih =>
    rcases Nat.eq_zero_or_pos n with h | h
    · subst h; simp [natToBytes_zero]
    · rw [natToBytes_succ n h]
      intro b hb
      rcases List.mem_append.mp hb with hb | hb
      · exact ih (n / 256) (Nat.div_lt_self h (by omega)) b hb
      · simp only [List.mem_singleton] at hb
        subst hb
        exact Nat.mod_lt _ (by omega)

/-! ### Contexts

Go `context.Context` values, as far as the claims need to distinguish
them: the fresh `context.Background()`, the placeholder `context.TODO()`,
and caller-supplied contexts. -/

/-- Go contexts, distinguished only up to the identity of who created
them. -/
inductive GoContext : Type
  | background : GoContext
  | todo : GoContext
  | caller (id : Nat) : GoContext
deriving DecidableEq

/-! ### DER encoding (`SignMessage`, signer.go lines 115–128)

`SignMessage` splits the backend's raw signature `r‖s` at half its
length, reads both halves with `big.Int.SetBytes`, and re-encodes them as
`SEQUENCE { INTEGER r, INTEGER s }` using `cryptobyte.Builder.AddASN1`
and `AddASN1BigInt`. -/

/-- Contents octets of a DER INTEGER for a non-negative big integer, as
produced by `cryptobyte.Builder.AddASN1BigInt`: `[0]` for zero, else the
minimal big-endian bytes with a leading `0x00` added when the top bit is
set. -/
def asn1IntContents (n : Nat) : List Nat :=
  if n = 0 then [0]
  else if 128 ≤ (natToBytes n).headD 0 then 0 :: natToBytes n
  else natToBytes n

/-- DER length octets as emitted by `cryptobyte.Builder`: short form for
lengths below 128, otherwise `0x80 + k` followed by the `k` minimal
big-endian bytes of the length. -/
def derLen (l : Nat) : List Nat :=
  if l < 128 then [l] else (128 + (natToBytes l).length) :: natToBytes l

/-- DER encoding of an INTEGER (tag `0x02`) holding the non-negative
value `n`. -/
def derInt (n : Nat) : List Nat :=
  2 :: derLen (asn1IntContents n).length ++ asn1IntContents n

/-- The raw-to-DER conversion of `SignMessage` (signer.go lines
115–128): split `rawSig` at `len/2`, interpret both halves as unsigned
big-endian integers, and emit `SEQUENCE { INTEGER r, INTEGER s }` (tag
`0x30`). -/
def derFromRaw (rawSig : List Nat) : List Nat :=
  let r := bytesToNat (rawSig.take (rawSig.length / 2))
  let s := bytesToNat (rawSig.drop (rawSig.length / 2))
  let inner := derInt r ++ derInt s
  48 :: derLen inner.length ++ inner

/-! ### DER parsing (`VerifySignature`, signer.go lines 162–178)

`VerifySignature` parses the supplied bytes with
`cryptobyte.String.ReadASN1` / `ReadASN1Integer` and requires both the
outer input and the inner SEQUENCE contents to be fully consumed.  The
definitions below mirror `golang.org/x/crypto/cryptobyte.String.readASN1`
and `readASN1BigInt`. -/

/-- One ASN.1 header read, mirroring `cryptobyte.String.readASN1`:
returns the tag, the content length, and the bytes following the header.
Fails on high-tag-number form, zero or oversized length-of-length,
non-minimal long-form lengths, a long form used for a short length, and
`uint32` overflow of header-plus-content length. -/
def readASN1Header : List Nat → Option (Nat × Nat × List Nat)
  | t :: lb :: rest =>
    if t % 32 = 31 then none
    else if lb < 128 then some (t, lb, rest)
    else
      let lenLen := lb % 128
      if lenLen = 0 then none
      else if 4 < lenLen then none
      else if rest.length < lenLen then none
      else
        let len32 := bytesToNat (rest.take lenLen)
        if len32 < 128 then none
        else if len32 / 2 ^ (8 * (lenLen - 1)) = 0 then none
        else if 2 ^ 32 ≤ 2 + lenLen + len32 then none
        else some (t, len32, rest.drop lenLen)
  | _ => none

/-- `cryptobyte.String.ReadASN1`: read one element, require the expected
tag, and return its contents together with the bytes following the
element.  Fails when fewer content bytes are available than the header
declares. -/
def readASN1 (tag : Nat) (s : List Nat) : Option (List Nat × List Nat) :=
  match readASN1Header s with
  | none => none
  | some (t, len, rest) =>
    if t = tag then
      if len ≤ rest.length then some (rest.take len, rest.drop len) else none
    else none

/-- `cryptobyte.checkASN1Integer`: INTEGER contents must be non-empty
and minimally encoded (no redundant leading `0x00` or `0xff` byte). -/
def checkASN1Integer : List Nat → Bool
  | [] => false
  | [_] => true
  | b0 :: b1 :: _ =>
    if (b0 = 0 ∧ b1 < 128) ∨ (b0 = 255 ∧ 128 ≤ b1) then false else true

/-- Two's-complement value of negative INTEGER contents, as computed by
`cryptobyte.String.readASN1BigInt` (complement every byte, add one,
negate). -/
def asn1IntNeg (content : List Nat) : Int :=
  -(Int.ofNat (bytesToNat (content.map (fun b => 255 - b)) + 1))

/-- `cryptobyte.String.ReadASN1Integer` into a `big.Int`: read a tag-2
element, validate minimality, and interpret the contents in
two's complement. -/
def readASN1Integer (s : List Nat) : Option (Int × List Nat) :=
  match readASN1 2 s with
  | none => none
  | some (content, rest) =>
    if checkASN1Integer content then
      if 128 ≤ content.headD 0 then some (asn1IntNeg content, rest)
      else some (Int.ofNat (bytesToNat content), rest)
    else none

/-- The DER signature parse of `VerifySignature` (signer.go lines
166–173): read a SEQUENCE, require no trailing input, read two INTEGERs
from its contents, and require the contents to be fully consumed. -/
def parseSig (input : List Nat) : Option (Int × Int) :=
  match readASN1 48 input with
  | none => none
  | some (inner, rest) =>
    if rest = [] then
      match readASN1Integer inner with
      | none => none
      | some (r, inner2) =>
        match readASN1Integer inner2 with
        | none => none
        | some (s, inner3) => if inner3 = [] then some (r, s) else none
    else none

/-- Raw signature rebuilt by `VerifySignature` (signer.go lines
175–177): `r.Bytes()` concatenated with `s.Bytes()` — the minimal
big-endian magnitude bytes, with any leading zeros gone. -/
def rawSigOfPair (r s : Int) : List Nat :=
  natToBytes r.natAbs ++ natToBytes s.natAbs

/-- The DER-to-raw conversion performed inside `VerifySignature`:
`none` when strict parsing fails, otherwise the reassembled raw
concatenation that is handed to the backend. -/
def rawFromDER (input : List Nat) : Option (List Nat) :=
  match parseSig input with
  | none => none
  | some (r, s) => some (rawSigOfPair r s)

/-- What `VerifySignature` does after computing the digest: either fail
while parsing the DER signature, or call the backend's verify operation
with a context, the rebuilt raw signature and the digest.  The context
is `context.Background()` created at signer.go line 143. -/
inductive VerifyOutcome : Type
  | parseError : VerifyOutcome
  | backendVerify (ctx : GoContext) (rawSig dgst : List Nat) : VerifyOutcome
deriving DecidableEq

/-- The backend-visible behaviour of `VerifySignature` (signer.go lines
162–178) on already-read signature bytes and digest. -/
def verifySignatureCall (sigBytes dgst : List Nat) : VerifyOutcome :=
  match parseSig sigBytes with
  | none => VerifyOutcome.parseError
  | some (r, s) => VerifyOutcome.backendVerify GoContext.background (rawSigOfPair r s) dgst

/-! ### SignerVerifier construction and options (signer.go) -/

/-- `crypto.SHA224` (Go `crypto.Hash` enumeration value). -/
def cryptoSHA224 : Nat := 4

/-- `crypto.SHA256`. -/
def cryptoSHA256 : Nat := 5

/-- `crypto.SHA384`. -/
def cryptoSHA384 : Nat := 6

/-- `crypto.SHA512`. -/
def cryptoSHA512 : Nat := 7

/-- `azureSupportedHashFuncs` (signer.go lines 33–35): the only hash the
Azure backend signs with is SHA-256. -/
def azureSupportedHashFuncs : List Nat := [cryptoSHA256]

/-- `Algorithm_ES256` (signer.go line 39). -/
def Algorithm_ES256 : String := "ES256"

/-- `azureSupportedAlgorithms` (signer.go lines 42–44). -/
def azureSupportedAlgorithms : List String := [Algorithm_ES256]

/-- The hash-function selection of `LoadSignerVerifier` (signer.go lines
66–71): the zero value and SHA-224/256/384/512 are stored unchanged, any
other value is rejected.  The result is the `hashFunc` field of the
constructed `SignerVerifier`. -/
def loadSignerVerifierHash (hashFunc : Nat) : Except String Nat :=
  if hashFunc = 0 ∨ hashFunc = cryptoSHA224 ∨ hashFunc = cryptoSHA256 ∨
      hashFunc = cryptoSHA384 ∨ hashFunc = cryptoSHA512 then
    Except.ok hashFunc
  else Except.error "hash function not supported by Hashivault"

/-- The fields of the `SignerVerifier` struct that the claims observe
(signer.go lines 46–50); the backend client is left abstract. -/
structure SVState : Type where
  defaultCtx : GoContext
  hashFunc : Nat
deriving DecidableEq

/-- One `signature.SignOption`, carrying whichever of a context
(`options.WithContext`), a pre-computed digest (`options.WithDigest`),
and signer options (`options.WithCryptoSignerOpts`) it sets. -/
structure SignOption : Type where
  ctx : Option GoContext
  dgst : Option (List Nat)
  signerHash : Option Nat
deriving DecidableEq

/-- `options.WithContext(ctx)`. -/
def withContext (c : GoContext) : SignOption :=
  { ctx := some c, dgst := none, signerHash := none }

/-- The local variables of `SignMessage` that the option loop can touch
(signer.go lines 96–103): the context, the digest and the signer
options. -/
structure SignMessageLocals : Type where
  ctx : GoContext
  dgst : Option (List Nat)
  signerHash : Nat
deriving DecidableEq

/-- Initial locals of `SignMessage` (signer.go lines 96–98): the context
is a fresh `context.Background()` and the signer options start from the
instance hash function. -/
def signMessageInit (a : SVState) : SignMessageLocals :=
  { ctx := GoContext.background, dgst := none, signerHash := a.hashFunc }

/-- The option loop of `SignMessage` (signer.go lines 100–103): each
option applies `ApplyDigest` and `ApplyCryptoSignerOpts`.  No
`ApplyContext` call is made, so the `ctx` local is never updated. -/
def signMessageApplyOpts (st : SignMessageLocals) (opts : List SignOption) :
    SignMessageLocals :=
  opts.foldl
    (fun s o =>
      { s with
        dgst := match o.dgst with | some d => some d | none => s.dgst
        signerHash := match o.signerHash with | some h => h | none => s.signerHash })
    st

/-- Modelled from the spec: `signature.ComputeDigestForSigning` (in the
vendored sigstore `signature` package, not under `src/`) validates that
the hash algorithm in effect "must be one the backend's signing
operation supports" before any digest is produced; the supported set
passed by `SignMessage` is `azureSupportedHashFuncs`. -/
def computeDigestHashOk (activeHash : Nat) : Bool :=
  azureSupportedHashFuncs.contains activeHash

/-- The backend request issued by a key-management operation. -/
inductive KMSRequest : Type
  | createKey (ctx : GoContext) : KMSRequest
deriving DecidableEq

/-- `SignerVerifier.CreateKey` (signer.go lines 188–190): the body is
`return a.client.createKey(ctx)` — the `algorithm` argument is never
consulted. -/
def createKeyCall (ctx : GoContext) (algorithm : String) : KMSRequest :=
  KMSRequest.createKey ctx

/-! ### Base64 (`encoding/base64` StdEncoding, used by tekton.go)

Standard padded base64.  Decoding mirrors Go's `StdEncoding.DecodeString`:
carriage returns and newlines are skipped, everything else must come in
quads over the standard alphabet, `=` padding may appear only at the end,
and unused trailing bits are not checked (Go's non-`Strict` mode). -/

/-- The standard base64 alphabet: six-bit value to ASCII code. -/
def b64Char (i : Nat) : Nat :=
  if i < 26 then 65 + i
  else if i < 52 then 97 + (i - 26)
  else if i < 62 then 48 + (i - 52)
  else if i = 62 then 43
  else 47

/-- Inverse alphabet lookup: ASCII code to six-bit value, `none` for
characters outside the alphabet. -/
def b64Index (c : Nat) : Option Nat :=
  if 65 ≤ c ∧ c ≤ 90 then some (c - 65)
  else if 97 ≤ c ∧ c ≤ 122 then some (c - 97 + 26)
  else if 48 ≤ c ∧ c ≤ 57 then some (c - 48 + 52)
  else if c = 43 then some 62
  else if c = 47 then some 63
  else none

/-- `base64.StdEncoding.EncodeToString`: three input bytes per four
output characters, with `=` padding (ASCII 61) for a final partial
group. -/
def base64Encode : List Nat → List Nat
  | b0 :: b1 :: b2 :: rest =>
    b64Char (b0 / 4) :: b64Char (b0 % 4 * 16 + b1 / 16) ::
      b64Char (b1 % 16 * 4 + b2 / 64) :: b64Char (b2 % 64) :: base64Encode rest
  | [b0, b1] => [b64Char (b0 / 4), b64Char (b0 % 4 * 16 + b1 / 16), b64Char (b1 % 16 * 4), 61]
  | [b0] => [b64Char (b0 / 4), b64Char (b0 % 4 * 16), 61, 61]
  | [] => []

/-- Quad-wise decoding of newline-free input, following Go's
`decodeQuantum`: padding is accepted only in the final quad, input whose
length is not a multiple of four is rejected. -/
def base64DecodeQuads : List Nat → Option (List Nat)
  | [] => some []
  | c0 :: c1 :: c2 :: c3 :: rest =>
    match b64Index c0, b64Index c1 with
    | some v0, some v1 =>
      if c2 = 61 then
        if c3 = 61 ∧ rest = [] then some [v0 * 4 + v1 / 16] else none
      else
        match b64Index c2 with
        | some v2 =>
          if c3 = 61 then
            if rest = [] then some [v0 * 4 + v1 / 16, v1 % 16 * 16 + v2 / 4] else none
          else
            match b64Index c3, base64DecodeQuads rest with
            | some v3, some tail =>
              some ((v0 * 4 + v1 / 16) :: (v1 % 16 * 16 + v2 / 4) :: (v2 % 4 * 64 + v3) :: tail)
            | _, _ => none
        | none => none
    | _, _ => none
  | _ => none

/-- `base64.StdEncoding.DecodeString`: skip `\r` and `\n`, then decode
strict quads. -/
def base64Decode (v : List Nat) : Option (List Nat) :=
  base64DecodeQuads (v.filter (fun c => c != 10 && c != 13))

/-! ### Tekton storage backend (tekton.go) -/

/-- `TaskRunAnnotationFormat` (tekton.go line 34); the Go constant is the
printf template `"chains.tekton.dev/taskrun-%s"` with the slot key
substituted at the end, so it is modelled as the fixed part to the left
of the parameter. -/
def TaskRunAnnotationFormat : String := "chains.tekton.dev/taskrun-"

/-- `AttestationAnnotationFormat` (tekton.go line 35). -/
def AttestationAnnotationFormat : String := "chains.tekton.dev/attestation-"

/-- `SignatureAnnotationFormat` (tekton.go line 36). -/
def SignatureAnnotationFormat : String := "chains.tekton.dev/signature-"

/-- `CertAnnotationsFormat` (tekton.go line 37). -/
def CertAnnotationsFormat : String := "chains.tekton.dev/cert-"

/-- `ChainAnnotationFormat` (tekton.go line 38). -/
def ChainAnnotationFormat : String := "chains.tekton.dev/chain-"

/-- Every annotation-key template used by the backend. -/
def allAnnotationFormats : List String :=
  [TaskRunAnnotationFormat, AttestationAnnotationFormat, SignatureAnnotationFormat,
    CertAnnotationsFormat, ChainAnnotationFormat]

/-- `fmt.Sprintf(format, key)` for the templates above: the fixed part
followed by the slot key. -/
def annKey (fmtPart : String) (key : String) : String :=
  fmtPart ++ key

/-- `formats.PayloadTypeTekton`, the native payload format.  The constant
lives in `pkg/chains/formats`, outside `src/`; its exact string value is
irrelevant to the claims, which only compare format values. -/
def PayloadTypeTekton : String := "tekton"

/-- `formats.PayloadTypeInTotoIte6`, the attestation payload format (also
declared outside `src/`; only its distinctness from the native format
matters). -/
def PayloadTypeInTotoIte6 : String := "in-toto"

/-- `config.StorageOpts`: the per-call options of the storage backend.
`cert` and `chain` are byte strings (Go `string` values used as bytes). -/
structure StorageOpts : Type where
  key : String
  cert : List Nat
  chain : List Nat
  payloadFormat : String

/-- `Backend.payloadKey` (tekton.go lines 140–148): pick the annotation
key for the payload from the payload format, or fail for an unsupported
format. -/
def payloadKey (opts : StorageOpts) : Except String String :=
  if opts.payloadFormat = PayloadTypeTekton then
    Except.ok (annKey TaskRunAnnotationFormat opts.key)
  else if opts.payloadFormat = PayloadTypeInTotoIte6 then
    Except.ok (annKey AttestationAnnotationFormat opts.key)
  else
    Except.error ("tekton storage does not support payloads of type \"" ++
      opts.payloadFormat ++ "\"")

/-- The annotation mapping of a TaskRun record: keys to byte-string
values, `none` for absent keys. -/
def Annotations : Type := String → Option (List Nat)

/-- The merge-patch body built by `StorePayload` (tekton.go lines 62–71):
signature, certificate, chain and payload entries, each base64 encoded
and scoped by `opts.key`. -/
def storePatchMap (rawPayload sig : List Nat) (opts : StorageOpts) :
    Except String (List (String × List Nat)) :=
  match payloadKey opts with
  | Except.error e => Except.error e
  | Except.ok pk =>
    Except.ok
      [(annKey SignatureAnnotationFormat opts.key, base64Encode sig),
       (annKey CertAnnotationsFormat opts.key, base64Encode opts.cert),
       (annKey ChainAnnotationFormat opts.key, base64Encode opts.chain),
       (pk, base64Encode rawPayload)]

/-- Modelled from the spec: the JSON merge-patch built by
`patch.GetAnnotationsPatch` and applied by the Kubernetes `Patch` call
(both outside `src/`) sets exactly the keys present in the patch and
leaves every other annotation untouched. -/
def applyMergePatch (ann : Annotations) (p : List (String × List Nat)) : Annotations :=
  fun k =>
    match List.lookup k p with
    | some v => some v
    | none => ann k

/-- `Backend.StorePayload` (tekton.go lines 59–83) as a transformation of
the record's annotations: build the patch map (failing on an unsupported
payload format, before any patch request) and apply it as a merge
patch. -/
def storePayload (ann : Annotations) (rawPayload sig : List Nat)
    (opts : StorageOpts) : Except String Annotations :=
  match storePatchMap rawPayload sig opts with
  | Except.error e => Except.error e
  | Except.ok p => Except.ok (applyMergePatch ann p)

/-- `Backend.retrieveAnnotationValue` (tekton.go lines 90–117) on a
successfully fetched record: an absent key yields the empty string with
no error; a present key is base64 decoded when requested, and a decode
failure is reported with the offending key in the message. -/
def retrieveAnnotationValue (ann : Annotations) (annotationKey : String)
    (dec : Bool) : Except String (List Nat) :=
  match ann annotationKey with
  | none => Except.ok []
  | some raw =>
    if dec then
      match base64Decode raw with
      | some v => Except.ok v
      | none =>
        Except.error ("error decoding the annotation value for the key \"" ++
          annotationKey ++ "\"")
    else Except.ok raw

/-- `Backend.RetrieveSignature` (tekton.go lines 120–123). -/
def retrieveSignature (ann : Annotations) (opts : StorageOpts) :
    Except String (List Nat) :=
  retrieveAnnotationValue ann (annKey SignatureAnnotationFormat opts.key) true

/-- `Backend.RetrievePayload` (tekton.go lines 126–138). -/
def retrievePayload (ann : Annotations) (opts : StorageOpts) :
    Except String (List Nat) :=
  match payloadKey opts with
  | Except.error e => Except.error e
  | Except.ok pk => retrieveAnnotationValue ann pk true

/-- The context passed to the Kubernetes `Patch` call in `StorePayload`
(tekton.go line 79): a literal `context.TODO()`. -/
def storePayloadPatchCtx : GoContext := GoContext.todo

/-- The context passed to the Kubernetes `Get` call in
`retrieveAnnotationValue` (tekton.go line 93): a literal
`context.TODO()`. -/
def retrieveTaskRunGetCtx : GoContext := GoContext.todo

/-! ### Lemmas about the DER encoder and parser -/

theorem derLen_length_le (l : Nat) (h : l < 2 ^ 32) : (derLen l).length ≤ 5 := by
  rw [derLen]
  by_cases hsf : l < 128
  · simp [hsf]
  · have hL : (natToBytes l).length ≤ 4 := by
      apply natToBytes_length_le
      have : (256 : Nat) ^ 4 = 2 ^ 32 := by norm_num
      omega
    simp only [if_neg hsf, List.length_cons]
    omega

theorem asn1IntContents_length (n : Nat) :
    (asn1IntContents n).length ≤ (natToBytes n).length + 1 := by
  rw [asn1IntContents]
  by_cases h0 : n = 0
  · simp [h0, natToBytes_zero]
  · rw [if_neg h0]
    by_cases hpad : 128 ≤ (natToBytes n).headD 0
    · rw [if_pos hpad]; simp
    · rw [if_neg hpad]; simp

theorem readASN1Header_derLen (t l : Nat) (tail : List Nat) (ht : t % 32 ≠ 31)
    (hl : l < 2 ^ 32 - 8) :
    readASN1Header (t :: (derLen l ++ tail)) = some (t, l, tail) := by
  by_cases hsf : l < 128
  · rw [derLen, if_pos hsf]
    show readASN1Header (t :: l :: tail) = some (t, l, tail)
    simp only [readASN1Header, if_neg ht, if_pos hsf]
  · rw [derLen, if_neg hsf]
    show readASN1Header (t :: (128 + (natToBytes l).length) :: (natToBytes l ++ tail)) =
      some (t, l, tail)
    have hlpos : 0 < l := by omega
    have hLpos : 0 < (natToBytes l).length :=
      List.length_pos.mpr (natToBytes_ne_nil l hlpos)
    have hL4 : (natToBytes l).length ≤ 4 := by
      apply natToBytes_length_le
      have : (256 : Nat) ^ 4 = 2 ^ 32 := by norm_num
      omega
    have hmod : (128 + (natToBytes l).length) % 128 = (natToBytes l).length := by
      omega
    have hlb : ¬ (128 + (natToBytes l).length < 128) := by omega
    simp only [readASN1Header, if_neg ht, if_neg hlb, hmod]
    rw [if_neg (by omega), if_neg (by omega),
        if_neg (by simp only [List.length_append]; omega)]
    rw [List.take_left, bytesToNat_natToBytes]
    rw [if_neg (by omega)]
    have hlow : 256 ^ ((natToBytes l).length - 1) ≤ l := natToBytes_lower l hlpos
    have hpow : (2 : Nat) ^ (8 * ((natToBytes l).length - 1)) =
        256 ^ ((natToBytes l).length - 1) := by
      rw [Nat.pow_mul]
    have hdiv : l / 2 ^ (8 * ((natToBytes l).length - 1)) ≠ 0 := by
      rw [hpow]
      have hp : 0 < 256 ^ ((natToBytes l).length - 1) := Nat.pos_pow_of_pos _ (by omega)
      rw [Nat.div_ne_zero_iff (by omega)]
      exact hlow
    rw [if_neg hdiv, if_neg (by omega), List.drop_left]

theorem readASN1_derEnc (t : Nat) (c tail : List Nat) (ht : t % 32 ≠ 31)
    (hc : c.length < 2 ^ 32 - 8) :
    readASN1 t (t :: (derLen c.length ++ (c ++ tail))) = some (c, tail) := by
  rw [readASN1, readASN1Header_derLen t c.length (c ++ tail) ht hc]
  have hle : c.length ≤ (c ++ tail).length := by simp
  simp [hle, List.take_left, List.drop_left]

theorem readASN1Integer_derInt (n : Nat) (rest : List Nat)
    (hn : (asn1IntContents n).length < 2 ^ 32 - 8) :
    readASN1Integer (derInt n ++ rest) = some (Int.ofNat n, rest) := by
  have hshape : derInt n ++ rest =
      2 :: (derLen (asn1IntContents n).length ++ (asn1IntContents n ++ rest)) := by
    simp [derInt, List.append_assoc]
  rw [hshape, readASN1Integer, readASN1_derEnc 2 _ rest (by decide) hn]
  by_cases h0 : n = 0
  · subst h0
    simp [asn1IntContents, checkASN1Integer, bytesToNat]
  · have hpos : 0 < n := by omega
    by_cases hpad : 128 ≤ (natToBytes n).headD 0
    · rw [asn1IntContents, if_neg h0, if_pos hpad]
      cases hnb : natToBytes n with
      | nil => exact absurd hnb (natToBytes_ne_nil n hpos)
      | cons h' t' =>
        rw [hnb] at hpad
        simp only [List.headD_cons] at hpad
        have hcheck : checkASN1Integer (0 :: h' :: t') = true := by
          rw [checkASN1Integer]
          rw [if_neg (by omega)]
        have hval : bytesToNat (0 :: h' :: t') = n := by
          have h1 : bytesToNat (0 :: h' :: t') = bytesToNat (h' :: t') := by
            simp [bytesToNat]
          rw [h1, ← hnb, bytesToNat_natToBytes]
        simp [hcheck, hval]
    · rw [asn1IntContents, if_neg h0, if_neg hpad]
      cases hnb : natToBytes n with
      | nil => exact absurd hnb (natToBytes_ne_nil n hpos)
      | cons h' t' =>
        have hh' : h' ≠ 0 := by
          have := natToBytes_headD n hpos
          rw [hnb] at this
          simpa using this
        rw [hnb] at hpad
        simp only [List.headD_cons] at hpad
        have hcheck : checkASN1Integer (h' :: t') = true := by
          cases t' with
          | nil => rfl
          | cons b1 t'' =>
            rw [checkASN1Integer]
            rw [if_neg (by omega)]
        have hval : bytesToNat (h' :: t') = n := by
          rw [← hnb, bytesToNat_natToBytes]
        simp [hcheck, hval, hpad]

/-- C1 counterexample: the raw signature `r‖s` with `r = [0, 1]` and
`s = [0, 1]` (leading zero bytes, `n = 2`) does not survive the
DER round trip — `VerifySignature` rebuilds `[1, 1]`, dropping the
leading zeros that `big.Int` cannot represent. -/
theorem c1_counterexample :
    rawFromDER (derFromRaw ([0, 1] ++ [0, 1])) = some [1, 1] ∧
      rawFromDER (derFromRaw ([0, 1] ++ [0, 1])) ≠ some ([0, 1] ++ [0, 1]) := by
  decide

/-- C1 (amended): the raw-to-DER conversion of `SignMessage` followed by
the DER-to-raw conversion of `VerifySignature` restores the original
`r‖s` bytes, provided `|r| = |s|` is of realistic size and neither `r`
nor `s` has a leading zero byte (so both are the minimal unsigned
big-endian representations that `big.Int` round-trips). -/
theorem c1_roundTrip (r s : List Nat)
    (hlen : s.length = r.length) (hsz : r.length ≤ 2 ^ 20)
    (hrb : ∀ b ∈ r, b < 256) (hsb : ∀ b ∈ s, b < 256)
    (hr0 : r.headD 0 ≠ 0) (hs0 : s.headD 0 ≠ 0) :
    rawFromDER (derFromRaw (r ++ s)) = some (r ++ s) := by
  have hnr : natToBytes (bytesToNat r) = r := natToBytes_bytesToNat r hr0 hrb
  have hns : natToBytes (bytesToNat s) = s := natToBytes_bytesToNat s hs0 hsb
  have hsplit : (r ++ s).length / 2 = r.length := by
    simp only [List.length_append]
    omega
  have htake : (r ++ s).take ((r ++ s).length / 2) = r := by
    rw [hsplit]
    exact List.take_left r s
  have hdrop : (r ++ s).drop ((r ++ s).length / 2) = s := by
    rw [hsplit]
    exact List.drop_left r s
  have hder : derFromRaw (r ++ s) =
      48 :: derLen (derInt (bytesToNat r) ++ derInt (bytesToNat s)).length ++
        (derInt (bytesToNat r) ++ derInt (bytesToNat s)) := by
    simp only [derFromRaw]
    rw [htake, hdrop]
  have hcr : (asn1IntContents (bytesToNat r)).length ≤ r.length + 1 := by
    have h := asn1IntContents_length (bytesToNat r)
    rwa [hnr] at h
  have hcs : (asn1IntContents (bytesToNat s)).length ≤ s.length + 1 := by
    have h := asn1IntContents_length (bytesToNat s)
    rwa [hns] at h
  have hdlr : (derLen (asn1IntContents (bytesToNat r)).length).length ≤ 5 :=
    derLen_length_le _ (by omega)
  have hdls : (derLen (asn1IntContents (bytesToNat s)).length).length ≤ 5 :=
    derLen_length_le _ (by omega)
  have hdir : (derInt (bytesToNat r)).length ≤ r.length + 7 := by
    rw [derInt]
    simp only [List.length_cons, List.length_append]
    omega
  have hdis : (derInt (bytesToNat s)).length ≤ s.length + 7 := by
    rw [derInt]
    simp only [List.length_cons, List.length_append]
    omega
  have hinner : (derInt (bytesToNat r) ++ derInt (bytesToNat s)).length < 2 ^ 32 - 8 := by
    simp only [List.length_append]
    omega
  have houter : readASN1 48 (derFromRaw (r ++ s)) =
      some (derInt (bytesToNat r) ++ derInt (bytesToNat s), []) := by
    rw [hder]
    have h := readASN1_derEnc 48 (derInt (bytesToNat r) ++ derInt (bytesToNat s)) []
      (by decide) hinner
    rwa [List.append_nil] at h
  have hint1 : readASN1Integer (derInt (bytesToNat r) ++ derInt (bytesToNat s)) =
      some (Int.ofNat (bytesToNat r), derInt (bytesToNat s)) :=
    readASN1Integer_derInt _ _ (by omega)
  have hint2 : readASN1Integer (derInt (bytesToNat s)) =
      some (Int.ofNat (bytesToNat s), []) := by
    have h := readASN1Integer_derInt (bytesToNat s) [] (by omega)
    rwa [List.append_nil] at h
  rw [rawFromDER, parseSig, houter]
  simp only [hint1, hint2, if_pos rfl]
  simp [rawSigOfPair, hnr, hns]

/-- C1 witness: a concrete minimal raw signature round-trips. -/
theorem c1_roundTrip_witness :
    rawFromDER (derFromRaw ([1] ++ [1])) = some ([1] ++ [1]) :=
  c1_roundTrip [1] [1] rfl (by decide) (by decide) (by decide) (by decide) (by decide)

theorem readASN1Header_append (s sfx : List Nat) (t l : Nat) (r : List Nat)
    (h : readASN1Header s = some (t, l, r)) :
    readASN1Header (s ++ sfx) = some (t, l, r ++ sfx) := by
  match s with
  | [] => simp [readASN1Header] at h
  | [a] => simp [readASN1Header] at h
  | a :: b :: rest =>
    rw [List.cons_append, List.cons_append]
    simp only [readASN1Header] at h ⊢
    by_cases h31 : a % 32 = 31
    · rw [if_pos h31] at h
      simp at h
    · rw [if_neg h31] at h ⊢
      by_cases hsf : b < 128
      · rw [if_pos hsf] at h ⊢
        simp only [Option.some.injEq, Prod.mk.injEq] at h
        obtain ⟨h1, h2, h3⟩ := h
        subst h1
        subst h2
        subst h3
        rfl
      · rw [if_neg hsf] at h ⊢
        by_cases hz : b % 128 = 0
        · rw [if_pos hz] at h
          simp at h
        · rw [if_neg hz] at h ⊢
          by_cases h4 : 4 < b % 128
          · rw [if_pos h4] at h
            simp at h
          · rw [if_neg h4] at h ⊢
            by_cases hrl : rest.length < b % 128
            · rw [if_pos hrl] at h
              simp at h
            · rw [if_neg hrl] at h
              have hrl' : ¬ ((rest ++ sfx).length < b % 128) := by
                simp only [List.length_append]
                omega
              rw [if_neg hrl']
              rw [List.take_append_of_le_length (by omega),
                  List.drop_append_of_le_length (by omega)]
              by_cases hs128 : bytesToNat (rest.take (b % 128)) < 128
              · rw [if_pos hs128] at h
                simp at h
              · rw [if_neg hs128] at h ⊢
                by_cases hdv : bytesToNat (rest.take (b % 128)) / 2 ^ (8 * (b % 128 - 1)) = 0
                · rw [if_pos hdv] at h
                  simp at h
                · rw [if_neg hdv] at h ⊢
                  by_cases hov : 2 ^ 32 ≤ 2 + b % 128 + bytesToNat (rest.take (b % 128))
                  · rw [if_pos hov] at h
                    simp at h
                  · rw [if_neg hov] at h ⊢
                    simp only [Option.some.injEq, Prod.mk.injEq] at h
                    obtain ⟨h1, h2, h3⟩ := h
                    subst h1
                    subst h2
                    rw [h3]

theorem readASN1Header_shape (s : List Nat) (t l : Nat) (r : List Nat)
    (h : readASN1Header s = some (t, l, r)) :
    ∃ lb rest, s = t :: lb :: rest := by
  match s with
  | [] => simp [readASN1Header] at h
  | [a] => simp [readASN1Header] at h
  | a :: b :: rest =>
    refine ⟨b, rest, ?_⟩
    simp only [readASN1Header] at h
    by_cases h31 : a % 32 = 31
    · rw [if_pos h31] at h
      simp at h
    · rw [if_neg h31] at h
      by_cases hsf : b < 128
      · rw [if_pos hsf] at h
        simp only [Option.some.injEq, Prod.mk.injEq] at h
        rw [h.1]
      · rw [if_neg hsf] at h
        by_cases hz : b % 128 = 0
        · rw [if_pos hz] at h
          simp at h
        · rw [if_neg hz] at h
          by_cases h4 : 4 < b % 128
          · rw [if_pos h4] at h
            simp at h
          · rw [if_neg h4] at h
            by_cases hrl : rest.length < b % 128
            · rw [if_pos hrl] at h
              simp at h
            · rw [if_neg hrl] at h
              by_cases hs128 : bytesToNat (rest.take (b % 128)) < 128
              · rw [if_pos hs128] at h
                simp at h
              · rw [if_neg hs128] at h
                by_cases hdv : bytesToNat (rest.take (b % 128)) / 2 ^ (8 * (b % 128 - 1)) = 0
                · rw [if_pos hdv] at h
                  simp at h
                · rw [if_neg hdv] at h
                  by_cases hov : 2 ^ 32 ≤ 2 + b % 128 + bytesToNat (rest.take (b % 128))
                  · rw [if_pos hov] at h
                    simp at h
                  · rw [if_neg hov] at h
                    simp only [Option.some.injEq, Prod.mk.injEq] at h
                    rw [h.1]

theorem readASN1Header_retag (a b : Nat) (rest : List Nat) (t l : Nat) (r : List Nat)
    (h : readASN1Header (a :: b :: rest) = some (t, l, r)) (a' : Nat)
    (h31 : a' % 32 ≠ 31) :
    readASN1Header (a' :: b :: rest) = some (a', l, r) := by
  simp only [readASN1Header] at h ⊢
  by_cases ha31 : a % 32 = 31
  · rw [if_pos ha31] at h
    simp at h
  · rw [if_neg ha31] at h
    rw [if_neg h31]
    by_cases hsf : b < 128
    · rw [if_pos hsf] at h ⊢
      simp only [Option.some.injEq, Prod.mk.injEq] at h
      rw [h.2.1, h.2.2]
    · rw [if_neg hsf] at h ⊢
      by_cases hz : b % 128 = 0
      · rw [if_pos hz] at h
        simp at h
      · rw [if_neg hz] at h ⊢
        by_cases h4 : 4 < b % 128
        · rw [if_pos h4] at h
          simp at h
        · rw [if_neg h4] at h ⊢
          by_cases hrl : rest.length < b % 128
          · rw [if_pos hrl] at h
            simp at h
          · rw [if_neg hrl] at h ⊢
            by_cases hs128 : bytesToNat (rest.take (b % 128)) < 128
            · rw [if_pos hs128] at h
              simp at h
            · rw [if_neg hs128] at h ⊢
              by_cases hdv : bytesToNat (rest.take (b % 128)) / 2 ^ (8 * (b % 128 - 1)) = 0
              · rw [if_pos hdv] at h
                simp at h
              · rw [if_neg hdv] at h ⊢
                by_cases hov : 2 ^ 32 ≤ 2 + b % 128 + bytesToNat (rest.take (b % 128))
                · rw [if_pos hov] at h
                  simp at h
                · rw [if_neg hov] at h ⊢
                  simp only [Option.some.injEq, Prod.mk.injEq] at h
                  rw [h.2.1, h.2.2]

theorem readASN1_none (tag : Nat) (s : List Nat) (hh : readASN1Header s = none) :
    readASN1 tag s = none := by
  rw [readASN1, hh]

theorem readASN1_tag_mismatch (tag : Nat) (s : List Nat) (t len : Nat) (rest : List Nat)
    (hh : readASN1Header s = some (t, len, rest)) (ht : t ≠ tag) :
    readASN1 tag s = none := by
  rw [readASN1, hh]
  simp [ht]

theorem parseSig_none_of_outer_none (input : List Nat)
    (h : readASN1 48 input = none) : parseSig input = none := by
  rw [parseSig, h]

theorem parseSig_none_of_trailing (input : List Nat) (inner rest : List Nat)
    (h : readASN1 48 input = some (inner, rest)) (hne : rest ≠ []) :
    parseSig input = none := by
  rw [parseSig, h]
  simp [hne]

theorem verifySignatureCall_parseError (sigBytes dgst : List Nat)
    (h : parseSig sigBytes = none) :
    verifySignatureCall sigBytes dgst = VerifyOutcome.parseError := by
  rw [verifySignatureCall, h]

theorem parseSig_success_outer (bs : List Nat) (v : Int × Int)
    (h : parseSig bs = some v) :
    ∃ len rest0, readASN1Header bs = some (48, len, rest0) ∧ rest0.length = len := by
  rw [parseSig] at h
  cases hro : readASN1 48 bs with
  | none =>
    rw [hro] at h
    simp at h
  | some pr =>
    obtain ⟨inner, rest⟩ := pr
    rw [hro] at h
    by_cases hrest : rest = []
    · subst hrest
      rw [readASN1] at hro
      cases hh : readASN1Header bs with
      | none =>
        rw [hh] at hro
        simp at hro
      | some trip =>
        obtain ⟨t, len, rest0⟩ := trip
        rw [hh] at hro
        by_cases ht : t = 48
        · subst ht
          by_cases hle : len ≤ rest0.length
          · simp [hle] at hro
            obtain ⟨h1, h2⟩ := hro
            have hdroplen : (rest0.drop len).length = 0 := by
              simp [h2]
            rw [List.length_drop] at hdroplen
            exact ⟨len, rest0, rfl, by omega⟩
          · simp [hle] at hro
        · simp [ht] at hro
    · simp only [if_neg hrest] at h
      simp at h

/-- C2: for every byte string accepted by `VerifySignature`'s strict DER
parse, appending any trailing byte, or replacing the SEQUENCE tag by any
other value, makes the parse fail, so the backend verify call is never
reached. -/
theorem c2_strictDER (bs : List Nat) (rv sv : Int) (h : parseSig bs = some (rv, sv))
    (b : Nat) (t : Nat) (ht : t ≠ 48) (dgst : List Nat) :
    verifySignatureCall (bs ++ [b]) dgst = VerifyOutcome.parseError ∧
      verifySignatureCall (t :: bs.tail) dgst = VerifyOutcome.parseError := by
  obtain ⟨len, rest0, hh, hlen⟩ := parseSig_success_outer bs (rv, sv) h
  constructor
  · have hh' : readASN1Header (bs ++ [b]) = some (48, len, rest0 ++ [b]) :=
      readASN1Header_append bs [b] 48 len rest0 hh
    have hdrop : (rest0 ++ [b]).drop len = [b] := by
      rw [List.drop_append_of_le_length (by omega)]
      have h0 : rest0.drop len = [] := by
        apply List.drop_eq_nil_of_le
        omega
      rw [h0]
      rfl
    have hread : readASN1 48 (bs ++ [b]) = some ((rest0 ++ [b]).take len, [b]) := by
      rw [readASN1, hh']
      have hle : len ≤ (rest0 ++ [b]).length := by
        simp only [List.length_append]
        omega
      simp [hle, hdrop]
      omega
    exact verifySignatureCall_parseError _ _
      (parseSig_none_of_trailing _ _ _ hread (by simp))
  · obtain ⟨lb, rest, hshape⟩ := readASN1Header_shape bs 48 len rest0 hh
    have htail : t :: bs.tail = t :: lb :: rest := by
      simp [hshape]
    rw [htail]
    by_cases h31 : t % 32 = 31
    · have hnone : readASN1Header (t :: lb :: rest) = none := by
        simp only [readASN1Header]
        rw [if_pos h31]
      exact verifySignatureCall_parseError _ _
        (parseSig_none_of_outer_none _ (readASN1_none 48 _ hnone))
    · have hh2 : readASN1Header (t :: lb :: rest) = some (t, len, rest0) := by
        apply readASN1Header_retag 48 lb rest 48 len rest0 _ t h31
        rw [← hshape]
        exact hh
      exact verifySignatureCall_parseError _ _
        (parseSig_none_of_outer_none _ (readASN1_tag_mismatch 48 _ t len rest0 hh2 ht))

/-- C2 witness: a concrete valid DER signature is rejected after a
trailing byte is appended or its SEQUENCE tag is changed. -/
theorem c2_strictDER_witness :
    verifySignatureCall ([48, 6, 2, 1, 1, 2, 1, 1] ++ [0]) [] = VerifyOutcome.parseError ∧
      verifySignatureCall (49 :: [6, 2, 1, 1, 2, 1, 1]) [] = VerifyOutcome.parseError := by
  have h := c2_strictDER [48, 6, 2, 1, 1, 2, 1, 1] 1 1 (by decide) 0 49 (by decide) []
  exact ⟨h.1, h.2⟩

/-! ### Annotation-key disjointness -/

theorem strData_append (a b : String) : (a ++ b).data = a.data ++ b.data := rfl

theorem annFormats_no_pre : ∀ f ∈ allAnnotationFormats, ∀ g ∈ allAnnotationFormats,
    f ≠ g → ¬ (f.data <+: g.data) := by decide

theorem annKey_inj (f a b : String) (h : annKey f a = annKey f b) : a = b := by
  have hd : f.data ++ a.data = f.data ++ b.data := by
    have h2 := congrArg String.data h
    simpa [annKey, strData_append] using h2
  exact String.ext (List.append_cancel_left hd)

theorem annKey_fmt_ne (f g : String) (hf : f ∈ allAnnotationFormats)
    (hg : g ∈ allAnnotationFormats) (hfg : f ≠ g) (a b : String) :
    annKey f a ≠ annKey g b := by
  intro heq
  have hd : f.data ++ a.data = g.data ++ b.data := by
    have h2 := congrArg String.data heq
    simpa [annKey, strData_append] using h2
  rcases List.append_eq_append_iff.mp hd with ⟨a', ha1, _⟩ | ⟨c', hc1, _⟩
  · exact annFormats_no_pre f hf g hg hfg ⟨a', ha1.symm⟩
  · exact annFormats_no_pre g hg f hf (Ne.symm hfg) ⟨c', hc1.symm⟩

theorem annKey_ne (f g : String) (hf : f ∈ allAnnotationFormats)
    (hg : g ∈ allAnnotationFormats) (a b : String) (h : f = g → a ≠ b) :
    annKey f a ≠ annKey g b := by
  by_cases hfg : f = g
  · subst hfg
    intro heq
    exact h rfl (annKey_inj f a b heq)
  · exact annKey_fmt_ne f g hf hg hfg a b

/-! ### Claims about the Tekton storage backend -/

/-- C3: starting from a record with no annotations, storing payload
`"p"` and signature `"s"` under slot key `"step1"` with certificate
`"C"`, chain `"K"` and the native payload format makes `RetrievePayload`
return `"p"` and `RetrieveSignature` return `"s"` for the same options,
while `RetrievePayload` for the untouched slot key `"step2"` returns the
empty string with no error. -/
theorem c3_endToEnd :
    ∃ ann1,
      storePayload (fun _ => none) [112] [115]
          { key := "step1", cert := [67], chain := [75],
            payloadFormat := PayloadTypeTekton } = Except.ok ann1 ∧
        retrievePayload ann1
          { key := "step1", cert := [67], chain := [75],
            payloadFormat := PayloadTypeTekton } = Except.ok [112] ∧
        retrieveSignature ann1
          { key := "step1", cert := [67], chain := [75],
            payloadFormat := PayloadTypeTekton } = Except.ok [115] ∧
        retrievePayload ann1
          { key := "step2", cert := [67], chain := [75],
            payloadFormat := PayloadTypeTekton } = Except.ok [] := by
  refine ⟨_, rfl, ?_, ?_, ?_⟩ <;> rfl

/-- C4: for any payload format other than the native and attestation
formats, `StorePayload` fails inside `payloadKey` and no patch is built
or applied, leaving the record's annotations untouched. -/
theorem c4_unsupportedFormat (ann : Annotations) (rawPayload sig : List Nat)
    (opts : StorageOpts) (h1 : opts.payloadFormat ≠ PayloadTypeTekton)
    (h2 : opts.payloadFormat ≠ PayloadTypeInTotoIte6) :
    ∃ e, storePatchMap rawPayload sig opts = Except.error e ∧
      storePayload ann rawPayload sig opts = Except.error e := by
  refine ⟨"tekton storage does not support payloads of type \"" ++
    opts.payloadFormat ++ "\"", ?_, ?_⟩
  · rw [storePatchMap, payloadKey, if_neg h1, if_neg h2]
  · rw [storePayload, storePatchMap, payloadKey, if_neg h1, if_neg h2]

/-- C4 witness: the `simplesigning` format is rejected without a
patch. -/
theorem c4_unsupportedFormat_witness :
    ∃ e,
      storePatchMap [] []
          { key := "k", cert := [], chain := [],
            payloadFormat := "simplesigning" } = Except.error e ∧
        storePayload (fun _ => none) [] []
          { key := "k", cert := [], chain := [],
            payloadFormat := "simplesigning" } = Except.error e :=
  c4_unsupportedFormat (fun _ => none) [] [] _ (by decide) (by decide)

/-- C6: retrieving the signature of a slot key whose annotation is
absent yields an empty result with no error, while a present annotation
that is not valid base64 yields an error whose message names the
offending annotation key. -/
theorem c6_absenceVsCorruption (ann1 ann2 : Annotations) (opts : StorageOpts)
    (v : List Nat)
    (habsent : ann1 (annKey SignatureAnnotationFormat opts.key) = none)
    (hpresent : ann2 (annKey SignatureAnnotationFormat opts.key) = some v)
    (hbad : base64Decode v = none) :
    retrieveSignature ann1 opts = Except.ok [] ∧
      retrieveSignature ann2 opts =
        Except.error ("error decoding the annotation value for the key \"" ++
          annKey SignatureAnnotationFormat opts.key ++ "\"") := by
  constructor
  · rw [retrieveSignature, retrieveAnnotationValue, habsent]
  · rw [retrieveSignature, retrieveAnnotationValue, hpresent]
    simp [hbad]

/-- C6 witness: a missing annotation versus the non-base64 value `"!"`. -/
theorem c6_absenceVsCorruption_witness :
    retrieveSignature (fun _ => none)
        { key := "k", cert := [], chain := [], payloadFormat := PayloadTypeTekton } =
      Except.ok [] ∧
      retrieveSignature (fun _ => some [33])
          { key := "k", cert := [], chain := [], payloadFormat := PayloadTypeTekton } =
        Except.error ("error decoding the annotation value for the key \"" ++
          annKey SignatureAnnotationFormat "k" ++ "\"") :=
  c6_absenceVsCorruption (fun _ => none) (fun _ => some [33]) _ [33] rfl rfl (by decide)

theorem applyMergePatch_nil (ann : Annotations) (k : String) :
    applyMergePatch ann [] k = ann k := by
  simp [applyMergePatch, List.lookup]

theorem applyMergePatch_head (ann : Annotations) (k : String) (v : List Nat)
    (rest : List (String × List Nat)) :
    applyMergePatch ann ((k, v) :: rest) k = some v := by
  simp [applyMergePatch, List.lookup]

theorem applyMergePatch_skip (ann : Annotations) (k k' : String) (v : List Nat)
    (rest : List (String × List Nat)) (h : k ≠ k') :
    applyMergePatch ann ((k', v) :: rest) k = applyMergePatch ann rest k := by
  have hbeq : (k == k') = false := beq_eq_false_iff_ne.mpr h
  simp [applyMergePatch, List.lookup, hbeq]

theorem payloadKey_shape (opts : StorageOpts) (pk : String)
    (h : payloadKey opts = Except.ok pk) :
    ∃ pf, pf ∈ allAnnotationFormats ∧ pf ≠ SignatureAnnotationFormat ∧
      pf ≠ CertAnnotationsFormat ∧ pf ≠ ChainAnnotationFormat ∧
      pk = annKey pf opts.key := by
  rw [payloadKey] at h
  by_cases h1 : opts.payloadFormat = PayloadTypeTekton
  · rw [if_pos h1] at h
    exact ⟨TaskRunAnnotationFormat, by decide, by decide, by decide, by decide,
      (Except.ok.inj h).symm⟩
  · rw [if_neg h1] at h
    by_cases h2 : opts.payloadFormat = PayloadTypeInTotoIte6
    · rw [if_pos h2] at h
      exact ⟨AttestationAnnotationFormat, by decide, by decide, by decide, by decide,
        (Except.ok.inj h).symm⟩
    · rw [if_neg h2] at h
      exact absurd h (by simp)

/-- C5: a successful `StorePayload` overwrites exactly the four
annotation keys derived from `opts.key` (signature, certificate, chain
and payload) with the base64-encoded material, leaves every other
annotation unchanged, and in particular never alters an annotation whose
key format parameter is a different slot key. -/
theorem c5_frameEffect (ann : Annotations) (rawPayload sig : List Nat)
    (opts : StorageOpts) (pk : String) (h : payloadKey opts = Except.ok pk) :
    ∃ ann',
      storePayload ann rawPayload sig opts = Except.ok ann' ∧
      ann' (annKey SignatureAnnotationFormat opts.key) = some (base64Encode sig) ∧
      ann' (annKey CertAnnotationsFormat opts.key) = some (base64Encode opts.cert) ∧
      ann' (annKey ChainAnnotationFormat opts.key) = some (base64Encode opts.chain) ∧
      ann' pk = some (base64Encode rawPayload) ∧
      (∀ k, k ≠ annKey SignatureAnnotationFormat opts.key →
        k ≠ annKey CertAnnotationsFormat opts.key →
        k ≠ annKey ChainAnnotationFormat opts.key → k ≠ pk → ann' k = ann k) ∧
      (∀ g ∈ allAnnotationFormats, ∀ b : String, b ≠ opts.key →
        ann' (annKey g b) = ann (annKey g b)) := by
  obtain ⟨pf, hpfmem, hpfs, hpfc, hpfch, hpfeq⟩ := payloadKey_shape opts pk h
  have hsmem : SignatureAnnotationFormat ∈ allAnnotationFormats := by decide
  have hcmem : CertAnnotationsFormat ∈ allAnnotationFormats := by decide
  have hchmem : ChainAnnotationFormat ∈ allAnnotationFormats := by decide
  have hcs : annKey CertAnnotationsFormat opts.key ≠
      annKey SignatureAnnotationFormat opts.key :=
    annKey_fmt_ne _ _ hcmem hsmem (by decide) _ _
  have hchs : annKey ChainAnnotationFormat opts.key ≠
      annKey SignatureAnnotationFormat opts.key :=
    annKey_fmt_ne _ _ hchmem hsmem (by decide) _ _
  have hchc : annKey ChainAnnotationFormat opts.key ≠
      annKey CertAnnotationsFormat opts.key :=
    annKey_fmt_ne _ _ hchmem hcmem (by decide) _ _
  have hps : pk ≠ annKey SignatureAnnotationFormat opts.key := by
    rw [hpfeq]
    exact annKey_fmt_ne _ _ hpfmem hsmem hpfs _ _
  have hpc : pk ≠ annKey CertAnnotationsFormat opts.key := by
    rw [hpfeq]
    exact annKey_fmt_ne _ _ hpfmem hcmem hpfc _ _
  have hpch : pk ≠ annKey ChainAnnotationFormat opts.key := by
    rw [hpfeq]
    exact annKey_fmt_ne _ _ hpfmem hchmem hpfch _ _
  have hstore : storePayload ann rawPayload sig opts = Except.ok (applyMergePatch ann
      [(annKey SignatureAnnotationFormat opts.key, base64Encode sig),
       (annKey CertAnnotationsFormat opts.key, base64Encode opts.cert),
       (annKey ChainAnnotationFormat opts.key, base64Encode opts.chain),
       (pk, base64Encode rawPayload)]) := by
    rw [storePayload, storePatchMap, h]
  have hframe : ∀ k, k ≠ annKey SignatureAnnotationFormat opts.key →
      k ≠ annKey CertAnnotationsFormat opts.key →
      k ≠ annKey ChainAnnotationFormat opts.key → k ≠ pk →
      applyMergePatch ann
        [(annKey SignatureAnnotationFormat opts.key, base64Encode sig),
         (annKey CertAnnotationsFormat opts.key, base64Encode opts.cert),
         (annKey ChainAnnotationFormat opts.key, base64Encode opts.chain),
         (pk, base64Encode rawPayload)] k = ann k := by
    intro k h1 h2 h3 h4
    rw [applyMergePatch_skip _ _ _ _ _ h1, applyMergePatch_skip _ _ _ _ _ h2,
        applyMergePatch_skip _ _ _ _ _ h3, applyMergePatch_skip _ _ _ _ _ h4,
        applyMergePatch_nil]
  refine ⟨_, hstore, ?_, ?_, ?_, ?_, hframe, ?_⟩
  · exact applyMergePatch_head _ _ _ _
  · rw [applyMergePatch_skip _ _ _ _ _ hcs]
    exact applyMergePatch_head _ _ _ _
  · rw [applyMergePatch_skip _ _ _ _ _ hchs, applyMergePatch_skip _ _ _ _ _ hchc]
    exact applyMergePatch_head _ _ _ _
  · rw [applyMergePatch_skip _ _ _ _ _ hps, applyMergePatch_skip _ _ _ _ _ hpc,
        applyMergePatch_skip _ _ _ _ _ hpch]
    exact applyMergePatch_head _ _ _ _
  · intro g hg b hb
    apply hframe
    · exact annKey_ne g _ hg hsmem b opts.key (fun _ => hb)
    · exact annKey_ne g _ hg hcmem b opts.key (fun _ => hb)
    · exact annKey_ne g _ hg hchmem b opts.key (fun _ => hb)
    · rw [hpfeq]
      exact annKey_ne g pf hg hpfmem b opts.key (fun _ => hb)

/-- C5 witness: storing under slot `"A"` on a record carrying an
unrelated annotation for slot `"B"`. -/
theorem c5_frameEffect_witness :
    ∃ ann',
      storePayload (fun _ => none) [1] [2]
          { key := "A", cert := [3], chain := [4],
            payloadFormat := PayloadTypeTekton } = Except.ok ann' ∧
      ann' (annKey SignatureAnnotationFormat "A") = some (base64Encode [2]) ∧
      ann' (annKey CertAnnotationsFormat "A") = some (base64Encode [3]) ∧
      ann' (annKey ChainAnnotationFormat "A") = some (base64Encode [4]) ∧
      ann' (annKey TaskRunAnnotationFormat "A") = some (base64Encode [1]) ∧
      (∀ k, k ≠ annKey SignatureAnnotationFormat "A" →
        k ≠ annKey CertAnnotationsFormat "A" →
        k ≠ annKey ChainAnnotationFormat "A" → k ≠ annKey TaskRunAnnotationFormat "A" →
        ann' k = (fun _ => none) k) ∧
      (∀ g ∈ allAnnotationFormats, ∀ b : String, b ≠ "A" →
        ann' (annKey g b) = (fun _ => none) (annKey g b)) :=
  c5_frameEffect (fun _ => none) [1] [2]
    { key := "A", cert := [3], chain := [4], payloadFormat := PayloadTypeTekton }
    (annKey TaskRunAnnotationFormat "A") rfl

/-- C10: at the retrieval interface, a stored empty payload and a
never-stored slot are indistinguishable — after `StorePayload` with an
empty payload, `RetrievePayload` returns the empty string with no error,
exactly the result of `RetrievePayload` on a record whose payload
annotation is absent. -/
theorem c10_emptyVsAbsent (ann annFresh : Annotations) (sig : List Nat)
    (opts : StorageOpts) (pk : String) (h : payloadKey opts = Except.ok pk)
    (hfresh : annFresh pk = none) :
    (∃ ann', storePayload ann [] sig opts = Except.ok ann' ∧
      retrievePayload ann' opts = Except.ok []) ∧
      retrievePayload annFresh opts = Except.ok [] := by
  obtain ⟨pf, hpfmem, hpfs, hpfc, hpfch, hpfeq⟩ := payloadKey_shape opts pk h
  have hsmem : SignatureAnnotationFormat ∈ allAnnotationFormats := by decide
  have hcmem : CertAnnotationsFormat ∈ allAnnotationFormats := by decide
  have hchmem : ChainAnnotationFormat ∈ allAnnotationFormats := by decide
  constructor
  · have hstore : storePayload ann [] sig opts = Except.ok (applyMergePatch ann
        [(annKey SignatureAnnotationFormat opts.key, base64Encode sig),
         (annKey CertAnnotationsFormat opts.key, base64Encode opts.cert),
         (annKey ChainAnnotationFormat opts.key, base64Encode opts.chain),
         (pk, base64Encode [])]) := by
      rw [storePayload, storePatchMap, h]
    refine ⟨_, hstore, ?_⟩
    have hps : pk ≠ annKey SignatureAnnotationFormat opts.key := by
      rw [hpfeq]
      exact annKey_fmt_ne _ _ hpfmem hsmem hpfs _ _
    have hpc : pk ≠ annKey CertAnnotationsFormat opts.key := by
      rw [hpfeq]
      exact annKey_fmt_ne _ _ hpfmem hcmem hpfc _ _
    have hpch : pk ≠ annKey ChainAnnotationFormat opts.key := by
      rw [hpfeq]
      exact annKey_fmt_ne _ _ hpfmem hchmem hpfch _ _
    have hhit : applyMergePatch ann
        [(annKey SignatureAnnotationFormat opts.key, base64Encode sig),
         (annKey CertAnnotationsFormat opts.key, base64Encode opts.cert),
         (annKey ChainAnnotationFormat opts.key, base64Encode opts.chain),
         (pk, base64Encode [])] pk = some [] := by
      rw [applyMergePatch_skip _ _ _ _ _ hps, applyMergePatch_skip _ _ _ _ _ hpc,
          applyMergePatch_skip _ _ _ _ _ hpch]
      exact applyMergePatch_head _ _ _ _
    rw [retrievePayload, h]
    show retrieveAnnotationValue _ pk true = Except.ok []
    rw [retrieveAnnotationValue, hhit]
    rfl
  · rw [retrievePayload, h]
    show retrieveAnnotationValue annFresh pk true = Except.ok []
    rw [retrieveAnnotationValue, hfresh]

/-- C10 witness: slot `"k"` with the native payload format, on an empty
record. -/
theorem c10_emptyVsAbsent_witness :
    (∃ ann', storePayload (fun _ => none) [] [9]
        { key := "k", cert := [], chain := [],
          payloadFormat := PayloadTypeTekton } = Except.ok ann' ∧
      retrievePayload ann'
        { key := "k", cert := [], chain := [],
          payloadFormat := PayloadTypeTekton } = Except.ok []) ∧
      retrievePayload (fun _ => none)
        { key := "k", cert := [], chain := [],
          payloadFormat := PayloadTypeTekton } = Except.ok [] :=
  c10_emptyVsAbsent (fun _ => none) (fun _ => none) [9]
    { key := "k", cert := [], chain := [], payloadFormat := PayloadTypeTekton }
    (annKey TaskRunAnnotationFormat "k") rfl rfl

/-! ### Claims about the SignerVerifier construction, CreateKey, and
context handling -/

theorem signMessageApplyOpts_ctx (opts : List SignOption) :
    ∀ st : SignMessageLocals, (signMessageApplyOpts st opts).ctx = st.ctx := by
  induction opts with
  | nil =>
    intro st
    rfl
  | cons o rest ih =>
    intro st
    rw [signMessageApplyOpts, List.foldl_cons, ← signMessageApplyOpts, ih]

/-- C7 counterexample: `LoadSignerVerifier` with the unset (zero) hash
stores the zero value — the instance's active hash is not SHA-256, and a
`SignMessage` without overriding options resolves the zero hash. -/
theorem c7_counterexample :
    loadSignerVerifierHash 0 = Except.ok 0 ∧ (0 : Nat) ≠ cryptoSHA256 ∧
      (signMessageApplyOpts
        (signMessageInit { defaultCtx := GoContext.background, hashFunc := 0 })
        []).signerHash = 0 := by
  refine ⟨rfl, by decide, rfl⟩

/-- C7 (amended): when the hash algorithm is unset, `LoadSignerVerifier`
succeeds and keeps the zero value (no SHA-256 defaulting), so a
subsequent `SignMessage` without a hash option resolves hash zero, which
is not in `azureSupportedHashFuncs` — the digest step rejects it rather
than digesting with SHA-256. -/
theorem c7_unsetHash (a : SVState) (h : a.hashFunc = 0) :
    loadSignerVerifierHash 0 = Except.ok 0 ∧
      (signMessageApplyOpts (signMessageInit a) []).signerHash = 0 ∧
      computeDigestHashOk ((signMessageApplyOpts (signMessageInit a) []).signerHash) =
        false := by
  refine ⟨rfl, ?_, ?_⟩
  · show a.hashFunc = 0
    exact h
  · show computeDigestHashOk a.hashFunc = false
    rw [h]
    decide

/-- C7 witness: the concrete instance constructed with the zero hash. -/
theorem c7_unsetHash_witness :
    loadSignerVerifierHash 0 = Except.ok 0 ∧
      (signMessageApplyOpts
        (signMessageInit { defaultCtx := GoContext.background, hashFunc := 0 })
        []).signerHash = 0 ∧
      computeDigestHashOk
        ((signMessageApplyOpts
          (signMessageInit { defaultCtx := GoContext.background, hashFunc := 0 })
          []).signerHash) = false :=
  c7_unsetHash { defaultCtx := GoContext.background, hashFunc := 0 } rfl

/-- C8 counterexample: `CreateKey` with the unsupported algorithm name
`"RSASSA-PSS"` still issues the backend key-creation request instead of
failing. -/
theorem c8_counterexample :
    createKeyCall GoContext.background "RSASSA-PSS" =
        KMSRequest.createKey GoContext.background ∧
      "RSASSA-PSS" ∉ azureSupportedAlgorithms := by
  refine ⟨rfl, by decide⟩

/-- C8 (amended): `CreateKey` ignores its `algorithm` argument: every
algorithm name, supported or not, leads to the same backend key-creation
request and never to an unsupported-algorithm error. -/
theorem c8_createKeyIgnoresAlgorithm (ctx : GoContext) (alg1 alg2 : String) :
    createKeyCall ctx alg1 = KMSRequest.createKey ctx ∧
      createKeyCall ctx alg1 = createKeyCall ctx alg2 :=
  ⟨rfl, rfl⟩

/-- C9: caller-supplied contexts are not threaded through to the
backing I/O.  The option loop of `SignMessage` never updates the
`context.Background()` it starts from (even when `WithContext` is
supplied), `VerifySignature` calls the backend with
`context.Background()`, and the Tekton `Patch`/`Get` calls use
`context.TODO()`. -/
theorem c9_contextNotPropagated (a : SVState) (opts : List SignOption)
    (dgstBytes : List Nat) (rv sv : Int) (sigBytes : List Nat)
    (hsig : parseSig sigBytes = some (rv, sv)) :
    (signMessageApplyOpts (signMessageInit a) opts).ctx = GoContext.background ∧
      verifySignatureCall sigBytes dgstBytes =
        VerifyOutcome.backendVerify GoContext.background (rawSigOfPair rv sv) dgstBytes ∧
      storePayloadPatchCtx = GoContext.todo ∧
      retrieveTaskRunGetCtx = GoContext.todo := by
  refine ⟨?_, ?_, rfl, rfl⟩
  · rw [signMessageApplyOpts_ctx]
    rfl
  · rw [verifySignatureCall, hsig]

/-- C9 witness: a caller context supplied through `WithContext` is
ignored on a concrete valid signature. -/
theorem c9_contextNotPropagated_witness :
    (signMessageApplyOpts
        (signMessageInit { defaultCtx := GoContext.caller 1, hashFunc := cryptoSHA256 })
        [withContext (GoContext.caller 1)]).ctx = GoContext.background ∧
      verifySignatureCall [48, 6, 2, 1, 1, 2, 1, 1] [] =
        VerifyOutcome.backendVerify GoContext.background (rawSigOfPair 1 1) [] ∧
      storePayloadPatchCtx = GoContext.todo ∧
      retrieveTaskRunGetCtx = GoContext.todo :=
  c9_contextNotPropagated { defaultCtx := GoContext.caller 1, hashFunc := cryptoSHA256 }
    [withContext (GoContext.caller 1)] [] 1 1 [48, 6, 2, 1, 1, 2, 1, 1] (by decide)
